import Mathlib

/-!
Verification of the deb package metadata extractor (src/deb.go) against its
specification. The Go pipeline is shallowly embedded: strings are lists of
characters, byte streams are character lists with an explicit end marker, the
outer ar archive and the inner tar archive are event lists, and the external
decompressors are oracles attached to each outer member. Record mutation
through the shared pointer is modelled by threading the record value.
-/

set_option maxRecDepth 4000

namespace Deb

/-- The NUL character (byte 0), the delimiter passed to ReadString in parse_debian_binary. -/
def NUL : Char := Char.ofNat 0

/-- Horizontal tab. -/
def TAB : Char := Char.ofNat 9

/-- Line feed. -/
def LF : Char := Char.ofNat 10

/-- Carriage return. -/
def CR : Char := Char.ofNat 13

/-- View a Lean string literal as the character list representation used by the model. -/
def chars (s : String) : List Char := s.data

/-- Go unicode.IsSpace, the white space test used by strings.TrimSpace. -/
def isSpaceChar (c : Char) : Bool :=
  let n := c.toNat
  decide (n = 32) || (decide (9 ≤ n) && decide (n ≤ 13)) || decide (n = 0x85) ||
  decide (n = 0xA0) || decide (n = 0x1680) ||
  (decide (0x2000 ≤ n) && decide (n ≤ 0x200A)) || decide (n = 0x2028) ||
  decide (n = 0x2029) || decide (n = 0x202F) || decide (n = 0x205F) || decide (n = 0x3000)

/-- Go strings.TrimSpace: drop leading and trailing white space. -/
def trimSpace (s : List Char) : List Char :=
  ((s.dropWhile isSpaceChar).reverse.dropWhile isSpaceChar).reverse

/-- Drop one trailing carriage return, as the dropCR helper of bufio.ScanLines does. -/
def dropCR (l : List Char) : List Char :=
  match l.getLast? with
  | some c => if c = CR then l.dropLast else l
  | none => l

/-- Helper for splitLines; acc is the current line collected so far, in order. -/
def splitLinesGo (acc : List Char) : List Char → List (List Char)
  | [] => if acc.isEmpty then [] else [dropCR acc]
  | c :: rest =>
    if c = LF then dropCR acc :: splitLinesGo [] rest
    else splitLinesGo (acc ++ [c]) rest

/-- The line sequence produced by bufio.Scanner with the ScanLines split function:
lines are separated by line feeds, a carriage return directly before the separator is
dropped, and a final non empty line without a separator is still produced. -/
def splitLines (s : List Char) : List (List Char) := splitLinesGo [] s

/-- Go strings.SplitN(s, sep, 2) for the two character separator a b, reporting the text
before and after the first occurrence, or none when the separator does not occur. -/
def splitFirst2 (a b : Char) : List Char → Option (List Char × List Char)
  | [] => none
  | [_] => none
  | c :: d :: rest =>
    if c = a ∧ d = b then some ([], rest)
    else
      match splitFirst2 a b (d :: rest) with
      | some (pre, post) => some (c :: pre, post)
      | none => none

/-- Go strings.Split (SplitN with count -1) for the two character separator a b:
split at every non overlapping occurrence, leftmost first. Splitting the empty
string yields the one element list holding the empty string, as in Go. -/
def splitOn2 (a b : Char) : List Char → List (List Char)
  | [] => [[]]
  | [c] => [[c]]
  | c :: d :: rest =>
    if c = a ∧ d = b then [] :: splitOn2 a b rest
    else
      match splitOn2 a b (d :: rest) with
      | [] => [[c]]
      | first :: others => (c :: first) :: others

/-- The DEBPackage record of src/deb.go. Strings are character lists; the file
modification time is abstracted to an integer timestamp. Every field defaults to
its Go zero value. -/
structure DEBPackage where
  Architecture : List Char := []
  BuiltUsing : List (List Char) := []
  DebVersion : List Char := []
  Depends : List (List Char) := []
  Description : List Char := []
  Filename : List Char := []
  Homepage : List Char := []
  InstalledSize : Int := 0
  Maintainer : List Char := []
  Modified : Int := 0
  Name : List Char := []
  Priority : List Char := []
  Recommends : List (List Char) := []
  Section : List Char := []
  Version : List Char := []
deriving DecidableEq

/-- A DEBPackage with every field at its zero value. -/
def deb0 : DEBPackage := {}

/-- parse_control_field of src/deb.go: split the line on the first occurrence of
colon space into at most two fields; when two fields result, return both trimmed,
otherwise return two empty strings. -/
def parse_control_field (line : List Char) : List Char × List Char :=
  match splitFirst2 ':' ' ' line with
  | some (n, v) => (trimSpace n, trimSpace v)
  | none => ([], [])

/-- Numeric value of a decimal digit character, none for any other character. -/
def digitVal (c : Char) : Option Nat :=
  if 48 ≤ c.toNat ∧ c.toNat ≤ 57 then some (c.toNat - 48) else none

/-- Accumulate a decimal digit run; none as soon as a non digit appears. -/
def parseDigits (acc : Nat) : List Char → Option Nat
  | [] => some acc
  | c :: rest =>
    match digitVal c with
    | some d => parseDigits (acc * 10 + d) rest
    | none => none

/-- Go strconv.ParseInt(s, 10, 64): an optional sign, then a non empty run of
decimal digits, with a 64 bit signed range check. The error payloads abstract the
Go error text to its final clause. -/
def parseInt64 (s : List Char) : Except (List Char) Int :=
  let signed : Bool × List Char :=
    match s with
    | '+' :: rest => (false, rest)
    | '-' :: rest => (true, rest)
    | _ => (false, s)
  match signed with
  | (neg, digits) =>
    if digits.isEmpty then .error (chars "invalid syntax")
    else
      match parseDigits 0 digits with
      | none => .error (chars "invalid syntax")
      | some n =>
        if neg then
          if n ≤ 2 ^ 63 then .ok (-(n : Int)) else .error (chars "value out of range")
        else
          if n < 2 ^ 63 then .ok (n : Int) else .error (chars "value out of range")

/-- The message produced by errors.Wrap and errors.Wrapf of github.com/pkg/errors
on a non nil cause: the wrapping message, a colon and a space, then the cause. -/
def wrap (msg cause : List Char) : List Char := msg ++ chars ": " ++ cause

/-- Result of parse_control. Go mutates the record through a shared pointer, so the
record state reached by the time of an error return persists at the caller; err
therefore carries the partially updated record together with the message. crash
models the Go runtime fault (slice bounds out of range) raised by the expression
line[0:1] when the current line is empty. -/
inductive CtlResult where
  | ok (deb : DEBPackage)
  | err (deb : DEBPackage) (msg : List Char)
  | crash
deriving DecidableEq

/-- Membership of one character in the set tested by ContainsAny(line[0:1], " \t\r\n"). -/
def isContChar (c : Char) : Bool := c == ' ' || c == TAB || c == CR || c == LF

/-- The switch statement of parse_control: dispatch one already split field line to
the record, returning the updated record and the new in_description flag, or the
wrapped error for a malformed Installed-Size value. -/
def apply_field (deb : DEBPackage) (line : List Char) : Except (List Char) (DEBPackage × Bool) :=
  let nv := parse_control_field line
  let name := nv.1
  let value := nv.2
  if name = chars "Architecture" then .ok ({deb with Architecture := value}, false)
  else if name = chars "Built-Using" then .ok ({deb with BuiltUsing := splitOn2 ',' ' ' value}, false)
  else if name = chars "Depends" then .ok ({deb with Depends := splitOn2 ',' ' ' value}, false)
  else if name = chars "Description" then .ok ({deb with Description := value}, true)
  else if name = chars "Homepage" then .ok ({deb with Homepage := value}, false)
  else if name = chars "Installed-Size" then
    match parseInt64 value with
    | .error m => .error (wrap (chars "Error parsing Installed-Size") m)
    | .ok n => .ok ({deb with InstalledSize := n}, false)
  else if name = chars "Maintainer" then .ok ({deb with Maintainer := value}, false)
  else if name = chars "Package" then .ok ({deb with Name := value}, false)
  else if name = chars "Priority" then .ok ({deb with Priority := value}, false)
  else if name = chars "Recommends" then .ok ({deb with Recommends := splitOn2 ',' ' ' value}, false)
  else if name = chars "Section" then .ok ({deb with Section := value}, false)
  else if name = chars "Version" then .ok ({deb with Version := value}, false)
  else .ok (deb, false)

/-- The scanner loop of parse_control over the line sequence, carrying the
in_description state. While in description mode the Go code slices line[0:1],
which faults at run time on an empty line; a non continuation line leaves
description mode and is then handled as an ordinary field line. -/
def parse_control_lines (deb : DEBPackage) (in_description : Bool) : List (List Char) → CtlResult
  | [] => .ok deb
  | line :: rest =>
    match in_description, line with
    | true, [] => .crash
    | true, c :: tail =>
      if isContChar c then
        parse_control_lines {deb with Description := deb.Description ++ (c :: tail)} true rest
      else
        match apply_field deb (c :: tail) with
        | .ok (d2, desc2) => parse_control_lines d2 desc2 rest
        | .error m => .err deb m
    | false, _ =>
      match apply_field deb line with
      | .ok (d2, desc2) => parse_control_lines d2 desc2 rest
      | .error m => .err deb m

/-- parse_control of src/deb.go: split the member content into scanner lines and
run the scanner loop starting outside description mode. -/
def parse_control (deb : DEBPackage) (content : List Char) : CtlResult :=
  parse_control_lines deb false (splitLines content)

/-- One outcome of tar.Reader.Next inside the decompressed control archive: either
the next member, with its declared size and content bytes, or a read error. The
list ending plays the role of io.EOF. -/
inductive InnerEvent where
  | member (name : List Char) (size : Nat) (content : List Char)
  | readError (msg : List Char)
deriving DecidableEq

/-- Outcome of the archive walking functions: ok mirrors the Go pair (record, nil),
err mirrors (nil, error), and crash propagates the runtime fault of parse_control. -/
inductive Outcome where
  | ok (deb : DEBPackage)
  | err (msg : List Char)
  | crash
deriving DecidableEq

/-- parse_control_tar of src/deb.go: scan the inner tar member stream; end of
stream is success, a read error is wrapped and fatal, and every member named
./control has its content, bounded by the declared size as by io.LimitReader,
handed to parse_control. The Go code on line 142 calls parse_control as a bare
statement, discarding its error return, so both the ok and the err results of
parse_control continue the scan with the mutated record; a runtime fault still
propagates. -/
def parse_control_tar (deb : DEBPackage) : List InnerEvent → Outcome
  | [] => .ok deb
  | .readError m :: _ => .err (wrap (chars "Error reading control.tar") m)
  | .member name size content :: rest =>
    if name = chars "./control" then
      match parse_control deb (content.take size) with
      | .ok d2 => parse_control_tar d2 rest
      | .err d2 _ => parse_control_tar d2 rest
      | .crash => .crash
    else parse_control_tar deb rest

/-- End of a raw byte stream: normal end of file or a read failure carrying the
underlying error text. -/
inductive StreamEnd where
  | eof
  | ioError (msg : List Char)
deriving DecidableEq

/-- Outcome of one external decompressor (gzip, xz or zstd) on a member: the
decompressed inner tar event stream, or the initialization error of the codec. -/
inductive CodecResult where
  | ok (events : List InnerEvent)
  | fail (msg : List Char)
deriving DecidableEq

/-- Content of one outer archive member, abstracted two ways: bytes and ending
give the raw byte view read for debian-binary, and codec gives the outcome of the
external decompressor on the same member, consumed for the control.tar members.
The decompressors are external collaborators, so their outcome is supplied as an
oracle attached to the member. -/
structure OuterPayload where
  bytes : List Char
  ending : StreamEnd
  codec : CodecResult
deriving DecidableEq

/-- Result of bufio.Reader.ReadString(0): the delimiter was found (error nil, the
returned text includes the delimiter), the stream ended first (io.EOF), or the
underlying read failed. -/
inductive ReadStringResult where
  | foundDelim (s : List Char)
  | eofEnd (s : List Char)
  | failed (s : List Char) (msg : List Char)
deriving DecidableEq

/-- ReadString with the NUL delimiter over a byte stream: collect bytes until the
first NUL, the end of the stream, or a read failure. -/
def readString0 : List Char → StreamEnd → ReadStringResult
  | [], .eof => .eofEnd []
  | [], .ioError m => .failed [] m
  | c :: rest, e =>
    if c = NUL then .foundDelim [c]
    else
      match readString0 rest e with
      | .foundDelim s => .foundDelim (c :: s)
      | .eofEnd s => .eofEnd (c :: s)
      | .failed s m => .failed (c :: s) m

/-- parse_debian_binary of src/deb.go. The code returns errors.Wrap(err, ...) for
any ReadString error other than io.EOF; since Wrap of a nil cause is nil in
github.com/pkg/errors, finding the delimiter (nil error) returns success without
assigning DebVersion, io.EOF falls through and stores the trimmed text, and a real
read failure returns the wrapped error. -/
def parse_debian_binary (deb : DEBPackage) (p : OuterPayload) : Except (List Char) DEBPackage :=
  match readString0 p.bytes p.ending with
  | .foundDelim _ => .ok deb
  | .eofEnd s => .ok {deb with DebVersion := trimSpace s}
  | .failed _ m => .error (wrap (chars "Cannot read DEB version string") m)

/-- parse_control_tar_gz of src/deb.go: route the member through the external gzip
decompressor, wrapping an initialization failure, then scan the inner archive. -/
def parse_control_tar_gz (deb : DEBPackage) (p : OuterPayload) : Outcome :=
  match p.codec with
  | .fail m => .err (wrap (chars "Error decompressing control.tar.gz") m)
  | .ok events => parse_control_tar deb events

/-- parse_control_tar_xz of src/deb.go: as for gzip, with the xz decompressor. -/
def parse_control_tar_xz (deb : DEBPackage) (p : OuterPayload) : Outcome :=
  match p.codec with
  | .fail m => .err (wrap (chars "Error decompressing control.tar.xz") m)
  | .ok events => parse_control_tar deb events

/-- parse_control_tar_zst of src/deb.go: as for gzip, with the zstd decompressor
and the lower case message of source line 123. -/
def parse_control_tar_zst (deb : DEBPackage) (p : OuterPayload) : Outcome :=
  match p.codec with
  | .fail m => .err (wrap (chars "error decompressing control.tar.zst") m)
  | .ok events => parse_control_tar deb events

/-- One outcome of ar.Reader.Next at the outer archive: the next named member with
its payload, or a read error; the list ending plays the role of io.EOF. -/
inductive OuterEvent where
  | member (name : List Char) (payload : OuterPayload)
  | readError (msg : List Char)
deriving DecidableEq

/-- The member loop of Parse in src/deb.go: end of members is success, a read
error is wrapped with the file name and fatal, debian-binary and the three
control.tar members are dispatched to their handlers, any data.tar member ends
the walk immediately with success, and any other member name is printed and
skipped. -/
def parseEvents (deb : DEBPackage) : List OuterEvent → Outcome
  | [] => .ok deb
  | .readError m :: _ => .err (wrap (chars "Error reading " ++ deb.Filename) m)
  | .member name p :: rest =>
    if name = chars "debian-binary" then
      match parse_debian_binary deb p with
      | .ok d2 => parseEvents d2 rest
      | .error m => .err m
    else if name = chars "control.tar.gz" then
      match parse_control_tar_gz deb p with
      | .ok d2 => parseEvents d2 rest
      | .err m => .err m
      | .crash => .crash
    else if name = chars "control.tar.xz" then
      match parse_control_tar_xz deb p with
      | .ok d2 => parseEvents d2 rest
      | .err m => .err m
      | .crash => .crash
    else if name = chars "control.tar.zst" then
      match parse_control_tar_zst deb p with
      | .ok d2 => parseEvents d2 rest
      | .err m => .err m
      | .crash => .crash
    else if name = chars "data.tar.gz" then .ok deb
    else if name = chars "data.tar.xz" then .ok deb
    else if name = chars "data.tar.zst" then .ok deb
    else parseEvents deb rest

/-- Parse of src/deb.go after a successful open and stat: initialize the record
with the source file path and modification time, then walk the outer members. -/
def Parse (filename : List Char) (mtime : Int) (events : List OuterEvent) : Outcome :=
  parseEvents {Filename := filename, Modified := mtime} events

/-- An inner event that is a member whose name differs from ./control. -/
def isNonControlMember : InnerEvent → Bool
  | .member n _ _ => decide (n ≠ chars "./control")
  | .readError _ => false

/-- An outer event that is a member whose name is none of the four names with a
dedicated handler (debian-binary and the three control.tar members). -/
def isNonSpecialMember : OuterEvent → Bool
  | .member n _ =>
    decide (n ≠ chars "debian-binary" ∧ n ≠ chars "control.tar.gz" ∧
            n ≠ chars "control.tar.xz" ∧ n ≠ chars "control.tar.zst")
  | .readError _ => false

theorem parse_control_tar_skip (pre : List InnerEvent) :
    ∀ (deb : DEBPackage) (evs : List InnerEvent),
      pre.all isNonControlMember = true →
      parse_control_tar deb (pre ++ evs) = parse_control_tar deb evs := by
  induction pre with
  | nil => intro deb evs _; rfl
  | cons e pre ih =>
    intro deb evs h
    rw [List.all_cons, Bool.and_eq_true] at h
    obtain ⟨hm, ht⟩ := h
    cases e with
    | readError m => simp [isNonControlMember] at hm
    | member n s c =>
      simp only [isNonControlMember, decide_eq_true_eq] at hm
      rw [List.cons_append]
      simp only [parse_control_tar]
      rw [if_neg hm]
      exact ih deb evs ht

theorem parseEvents_nonspecial (evs : List OuterEvent) :
    ∀ (deb : DEBPackage), evs.all isNonSpecialMember = true → parseEvents deb evs = .ok deb := by
  induction evs with
  | nil => intro deb _; rfl
  | cons e evs ih =>
    intro deb h
    rw [List.all_cons, Bool.and_eq_true] at h
    obtain ⟨hm, ht⟩ := h
    cases e with
    | readError m => simp [isNonSpecialMember] at hm
    | member n p =>
      simp only [isNonSpecialMember, decide_eq_true_eq] at hm
      obtain ⟨h1, h2, h3, h4⟩ := hm
      simp only [parseEvents]
      rw [if_neg h1, if_neg h2, if_neg h3, if_neg h4]
      by_cases hg : n = chars "data.tar.gz"
      · rw [if_pos hg]
      · rw [if_neg hg]
        by_cases hx : n = chars "data.tar.xz"
        · rw [if_pos hx]
        · rw [if_neg hx]
          by_cases hz : n = chars "data.tar.zst"
          · rw [if_pos hz]
          · rw [if_neg hz]
            exact ih deb ht

theorem readString0_eof (bs : List Char) : NUL ∉ bs → readString0 bs .eof = .eofEnd bs := by
  induction bs with
  | nil => intro _; rfl
  | cons c rest ih =>
    intro h
    have hc : ¬c = NUL := fun hcn => h (List.mem_cons.mpr (Or.inl hcn.symm))
    have hr : NUL ∉ rest := fun hm => h (List.mem_cons.mpr (Or.inr hm))
    simp only [readString0]
    rw [if_neg hc, ih hr]

theorem readString0_ioError (bs : List Char) (m : List Char) :
    NUL ∉ bs → readString0 bs (.ioError m) = .failed bs m := by
  induction bs with
  | nil => intro _; rfl
  | cons c rest ih =>
    intro h
    have hc : ¬c = NUL := fun hcn => h (List.mem_cons.mpr (Or.inl hcn.symm))
    have hr : NUL ∉ rest := fun hm => h (List.mem_cons.mpr (Or.inr hm))
    simp only [readString0]
    rw [if_neg hc, ih hr]

theorem readString0_found (bs : List Char) (e : StreamEnd) :
    NUL ∈ bs → ∃ s, readString0 bs e = .foundDelim s := by
  induction bs with
  | nil => intro h; exact absurd h (List.not_mem_nil NUL)
  | cons c rest ih =>
    intro h
    by_cases hc : c = NUL
    · refine ⟨[c], ?_⟩
      simp only [readString0]
      rw [if_pos hc]
    · have hm : NUL ∈ rest := by
        rcases List.mem_cons.mp h with h1 | h2
        · exact absurd h1.symm hc
        · exact h2
      obtain ⟨s, hs⟩ := ih hm
      refine ⟨c :: s, ?_⟩
      simp only [readString0]
      rw [if_neg hc, hs]

/-- C1: a control text Installed-Size value that parses as a base-10 integer is stored in
InstalledSize, and a malformed value makes parse_control return a fatal error wrapped with
field context; however, contrary to the claim, parse_control_tar discards the error return
of parse_control (src/deb.go line 142), so the whole parse still succeeds and the record is
returned to the caller with InstalledSize left at zero. -/
theorem claim_C1_installed_size_error_swallowed :
    parse_control deb0 (chars "Installed-Size: 1024\n") = .ok {deb0 with InstalledSize := 1024} ∧
    parse_control deb0 (chars "Installed-Size: abc\n")
      = .err deb0 (wrap (chars "Error parsing Installed-Size") (chars "invalid syntax")) ∧
    parse_control_tar deb0 [.member (chars "./control") 20 (chars "Installed-Size: abc\n")]
      = .ok deb0 ∧
    Parse (chars "a.deb") 7
        [.member (chars "control.tar.gz")
          ⟨[], .eof, .ok [.member (chars "./control") 20 (chars "Installed-Size: abc\n")]⟩]
      = .ok {Filename := chars "a.deb", Modified := 7} :=
  ⟨by decide, by decide, by decide, by decide⟩

/-- C2: contrary to the claim, parsing an empty line while in description continuation mode
crashes: the Go expression line[0:1] faults at run time on a zero length line, so the model
yields the crash outcome instead of ending continuation mode. -/
theorem claim_C2_empty_line_crashes :
    parse_control deb0 (chars "Description: x\n\nPackage: y\n") = .crash := by decide

/-- C3: the inner extractor scans the tar member sequence; a stream of members none of which
is named ./control ends in success with the record unchanged (control fields unpopulated);
the content of a ./control member, bounded by its declared length, is handed to the control
text parser and the scan continues from the parser result; a read error while scanning is
fatal and propagates wrapped with the control.tar context. -/
theorem claim_C3_inner_extractor :
    (∀ (deb : DEBPackage) (evs : List InnerEvent),
       evs.all isNonControlMember = true → parse_control_tar deb evs = .ok deb) ∧
    (∀ (deb d2 : DEBPackage) (pre : List InnerEvent) (sz : Nat) (ct : List Char)
       (rest : List InnerEvent),
       pre.all isNonControlMember = true →
       parse_control deb (ct.take sz) = .ok d2 →
       parse_control_tar deb (pre ++ .member (chars "./control") sz ct :: rest)
         = parse_control_tar d2 rest) ∧
    (∀ (deb : DEBPackage) (pre : List InnerEvent) (m : List Char) (rest : List InnerEvent),
       pre.all isNonControlMember = true →
       parse_control_tar deb (pre ++ .readError m :: rest)
         = .err (wrap (chars "Error reading control.tar") m)) := by
  refine ⟨?_, ?_, ?_⟩
  · intro deb evs h
    have h2 := parse_control_tar_skip evs deb [] h
    rw [List.append_nil] at h2
    exact h2
  · intro deb d2 pre sz ct rest hpre hok
    rw [parse_control_tar_skip pre deb _ hpre]
    simp [parse_control_tar, hok]
  · intro deb pre m rest hpre
    rw [parse_control_tar_skip pre deb _ hpre]
    rfl

/-- Witness for C3 at concrete inputs: a member stream without ./control succeeds with the
record unchanged, a found ./control member hands its bytes to the parser, and a read error
is wrapped and fatal. -/
theorem claim_C3_inner_extractor_w :
    ([InnerEvent.member (chars "md5sums") 0 []].all isNonControlMember = true) ∧
    parse_control_tar deb0 [.member (chars "md5sums") 0 []] = .ok deb0 ∧
    parse_control deb0 ((chars "Package: x\n").take 11) = .ok {deb0 with Name := chars "x"} ∧
    parse_control_tar deb0
        ([.member (chars "md5sums") 0 []] ++
          .member (chars "./control") 11 (chars "Package: x\n") :: ([] : List InnerEvent))
      = parse_control_tar {deb0 with Name := chars "x"} [] ∧
    parse_control_tar deb0 ([] ++ .readError (chars "bad tar") :: ([] : List InnerEvent))
      = .err (wrap (chars "Error reading control.tar") (chars "bad tar")) :=
  ⟨by decide,
   claim_C3_inner_extractor.1 deb0 _ (by decide),
   by decide,
   claim_C3_inner_extractor.2.1 deb0 {deb0 with Name := chars "x"} _ 11 _ _ (by decide) (by decide),
   claim_C3_inner_extractor.2.2 deb0 [] _ [] (by decide)⟩

/-- C4: for a debian-binary member whose content holds no NUL byte and ends at end of
stream, the walk stores the content trimmed of surrounding whitespace as DebVersion and
succeeds; end of stream is the expected termination, while any other read failure aborts
the whole parse with the wrapped fatal error. -/
theorem claim_C4_debian_binary (fn : List Char) (t : Int) (deb : DEBPackage)
    (bs : List Char) (co : CodecResult) (m : List Char) (rest : List OuterEvent)
    (h : NUL ∉ bs) :
    parse_debian_binary deb ⟨bs, .eof, co⟩ = .ok {deb with DebVersion := trimSpace bs} ∧
    Parse fn t (.member (chars "debian-binary") ⟨bs, .eof, co⟩ :: rest)
      = parseEvents {Filename := fn, Modified := t, DebVersion := trimSpace bs} rest ∧
    Parse fn t [.member (chars "debian-binary") ⟨bs, .eof, co⟩]
      = .ok {Filename := fn, Modified := t, DebVersion := trimSpace bs} ∧
    parse_debian_binary deb ⟨bs, .ioError m, co⟩
      = .error (wrap (chars "Cannot read DEB version string") m) ∧
    Parse fn t (.member (chars "debian-binary") ⟨bs, .ioError m, co⟩ :: rest)
      = .err (wrap (chars "Cannot read DEB version string") m) := by
  have he := readString0_eof bs h
  have hi := readString0_ioError bs m h
  refine ⟨?_, ?_, ?_, ?_, ?_⟩
  · simp [parse_debian_binary, he]
  · simp [Parse, parseEvents, parse_debian_binary, he]
  · simp [Parse, parseEvents, parse_debian_binary, he]
  · simp [parse_debian_binary, hi]
  · simp [Parse, parseEvents, parse_debian_binary, hi]

/-- Witness for C4 at concrete inputs: content with surrounding whitespace is stored
trimmed on the end of stream path, and a read failure aborts the parse wrapped. -/
theorem claim_C4_debian_binary_w :
    NUL ∉ chars " 2.0 " ∧
    parse_debian_binary deb0 ⟨chars " 2.0 ", .eof, .ok []⟩
      = .ok {deb0 with DebVersion := trimSpace (chars " 2.0 ")} ∧
    trimSpace (chars " 2.0 ") = chars "2.0" ∧
    Parse (chars "p.deb") 0
        [.member (chars "debian-binary") ⟨chars " 2.0 ", .ioError (chars "boom"), .ok []⟩]
      = .err (wrap (chars "Cannot read DEB version string") (chars "boom")) :=
  ⟨by decide,
   (claim_C4_debian_binary (chars "p.deb") 0 deb0 (chars " 2.0 ") (.ok []) (chars "boom") []
     (by decide)).1,
   by decide,
   (claim_C4_debian_binary (chars "p.deb") 0 deb0 (chars " 2.0 ") (.ok []) (chars "boom") []
     (by decide)).2.2.2.2⟩

/-- C5: the continuation mechanism appends each whitespace initiated line verbatim to the
description with no separator, and a non empty terminating line is evaluated as a normal
field line; however, contrary to the claim, an empty terminating line crashes the parser
(the Go expression line[0:1] faults on a zero length line), instead of ending continuation
mode and being evaluated as a field-less line. -/
theorem claim_C5_description_continuation :
    parse_control deb0 (chars "Description: a\n b\n\tc\nVersion: 2\n")
      = .ok {deb0 with Description := chars "a b\tc", Version := chars "2"} ∧
    parse_control deb0 (chars "Description: a\n\nVersion: 2\n") = .crash :=
  ⟨by decide, by decide⟩

/-- C6: a member named data.tar.gz, data.tar.xz or data.tar.zst ends the walk immediately
with the record accumulated so far as a success, independently of that member payload and
of every later event in the stream. -/
theorem claim_C6_data_member_stops_walk (deb : DEBPackage) (p : OuterPayload)
    (rest : List OuterEvent) :
    parseEvents deb (.member (chars "data.tar.gz") p :: rest) = .ok deb ∧
    parseEvents deb (.member (chars "data.tar.xz") p :: rest) = .ok deb ∧
    parseEvents deb (.member (chars "data.tar.zst") p :: rest) = .ok deb :=
  ⟨rfl, rfl, rfl⟩

/-- C7: for an archive whose members carry none of the four specially handled names, the
walk succeeds and every field except Filename and Modified keeps its zero value; the
archive whose only member is data.tar.gz gives the same zero record with no error; but,
contrary to the claim, a control text that lacks a given field does not always parse
successfully: the text consisting of a Description line followed by an empty line (which
lacks, for example, the Package field) crashes the parser instead of succeeding. -/
theorem claim_C7_fields_optional :
    (∀ (fn : List Char) (t : Int) (evs : List OuterEvent),
       evs.all isNonSpecialMember = true →
       Parse fn t evs = .ok {Filename := fn, Modified := t}) ∧
    (∀ (fn : List Char) (t : Int) (p : OuterPayload) (rest : List OuterEvent),
       Parse fn t (.member (chars "data.tar.gz") p :: rest)
         = .ok {Filename := fn, Modified := t}) ∧
    parse_control deb0 (chars "Description: x\n\n") = .crash := by
  refine ⟨?_, ?_, by decide⟩
  · intro fn t evs h
    exact parseEvents_nonspecial evs _ h
  · intro fn t p rest
    rfl

/-- Witness for C7 at a concrete input: the single member data.tar.gz yields the record
with only Filename and Modified populated and no error. -/
theorem claim_C7_fields_optional_w :
    ([OuterEvent.member (chars "data.tar.gz") ⟨[], .eof, .ok []⟩].all isNonSpecialMember
      = true) ∧
    Parse (chars "x.deb") 3 [.member (chars "data.tar.gz") ⟨[], .eof, .ok []⟩]
      = .ok {Filename := chars "x.deb", Modified := 3} :=
  ⟨by decide, claim_C7_fields_optional.1 (chars "x.deb") 3 _ (by decide)⟩

/-- C8: the line Depends: a, b, c yields the dependency sequence a, b, c in order, and in
general the trimmed Depends value is split on every occurrence of the two character
separator comma space into an ordered sequence. -/
theorem claim_C8_depends_split :
    parse_control deb0 (chars "Depends: a, b, c")
      = .ok {deb0 with Depends := [chars "a", chars "b", chars "c"]} ∧
    ∀ (deb : DEBPackage) (v : List Char), trimSpace v = v →
      parse_control_lines deb false [chars "Depends: " ++ v]
        = .ok {deb with Depends := splitOn2 ',' ' ' v} := by
  constructor
  · decide
  · intro deb v hv
    have h1 : parse_control_lines deb false [chars "Depends: " ++ v]
        = .ok {deb with Depends := splitOn2 ',' ' ' (trimSpace v)} := rfl
    rw [hv] at h1
    exact h1

/-- Witness for C8 at a concrete input: a trimmed Depends value is split on comma space. -/
theorem claim_C8_depends_split_w :
    trimSpace (chars "x, y z") = chars "x, y z" ∧
    parse_control_lines deb0 false [chars "Depends: " ++ chars "x, y z"]
      = .ok {deb0 with Depends := splitOn2 ',' ' ' (chars "x, y z")} ∧
    splitOn2 ',' ' ' (chars "x, y z") = [chars "x", chars "y z"] :=
  ⟨by decide, claim_C8_depends_split.2 deb0 (chars "x, y z") (by decide), by decide⟩

/-- C9: a debian-binary member whose content holds a NUL byte makes ReadString return with
a nil error, errors.Wrap of nil is nil, so parse_debian_binary returns success without
assigning DebVersion, and the walk continues with the record unchanged. -/
theorem claim_C9_nul_sentinel (fn : List Char) (t : Int) (deb : DEBPackage)
    (bs : List Char) (e : StreamEnd) (co : CodecResult) (rest : List OuterEvent)
    (h : NUL ∈ bs) :
    parse_debian_binary deb ⟨bs, e, co⟩ = .ok deb ∧
    Parse fn t (.member (chars "debian-binary") ⟨bs, e, co⟩ :: rest)
      = parseEvents {Filename := fn, Modified := t} rest := by
  obtain ⟨s, hs⟩ := readString0_found bs e h
  constructor
  · simp [parse_debian_binary, hs]
  · simp [Parse, parseEvents, parse_debian_binary, hs]

/-- Witness for C9 at a concrete input: content with an embedded NUL leaves DebVersion at
its zero value and the member parse succeeds. -/
theorem claim_C9_nul_sentinel_w :
    NUL ∈ chars "2.0" ++ NUL :: chars "junk" ∧
    parse_debian_binary deb0 ⟨chars "2.0" ++ NUL :: chars "junk", .eof, .ok []⟩ = .ok deb0 :=
  ⟨by decide,
   (claim_C9_nul_sentinel (chars "f") 0 deb0 (chars "2.0" ++ NUL :: chars "junk") .eof
     (.ok []) [] (by decide)).1⟩

/-- C10: a recognized list field line with an empty or all whitespace value yields a one
element sequence containing the empty string, for Depends, Recommends and Built-Using. -/
theorem claim_C10_empty_value_singleton :
    parse_control deb0 (chars "Depends: \n") = .ok {deb0 with Depends := [[]]} ∧
    parse_control deb0 (chars "Recommends: \n") = .ok {deb0 with Recommends := [[]]} ∧
    parse_control deb0 (chars "Built-Using: \n") = .ok {deb0 with BuiltUsing := [[]]} ∧
    parse_control deb0 (chars "Depends:    \n") = .ok {deb0 with Depends := [[]]} :=
  ⟨by decide, by decide, by decide, by decide⟩

end Deb
